import Mathlib

set_option maxHeartbeats 1000000

/-!
Shallow embedding of the MIR function-inlining pass
(src/librustc_mir/transform/inline.rs) and proofs about it.

Machine-level type information (layout sizes, drop glue, pointee types,
tuple field types, intrinsic classification) is provided by the compiler
context in the source; here it is modelled by an explicit oracle record
Ctx whose fields stand for the corresponding tcx queries.
-/

namespace MirInline

/-- Types are abstract tokens; every type-level query the pass performs
goes through an oracle in Ctx. -/
abbrev Ty := Nat

abbrev Local := Nat

abbrev BasicBlock := Nat

/-- Local number 0 is the return slot (RETURN_PLACE in the source). -/
def RETURN_PLACE : Local := 0

/-- Block number 0 is the entry block (START_BLOCK in the source). -/
def START_BLOCK : BasicBlock := 0

inductive ProjectionElem where
  | deref
  | field (f : Nat) (ty : Ty)
  | index (l : Local)
  | constantIndex (offset : Nat) (minLength : Nat) (fromEnd : Bool)
  | subslice (lo : Nat) (hi : Nat)
  | downcast (variant : Nat)
deriving DecidableEq, Repr

inductive Place where
  | localP (l : Local)
  | staticP (s : Nat)
  | projection (base : Place) (elem : ProjectionElem)
deriving DecidableEq, Repr

/-- Operand. A constant carries the information the pass ever looks at:
whether its type is a function definition (and then which one), and
whether its literal is a reference to a promoted constant. -/
inductive Operand where
  | copy (p : Place)
  | move (p : Place)
  | constant (fnDef : Option Nat) (promotedRef : Option Nat)
deriving DecidableEq, Repr

/-- Rvalue. The forms the inliner itself constructs (Use, Ref, Cast) are
explicit; the remaining variants are collapsed into a generic container
that still exposes the operands and places a visitor must rewrite. -/
inductive Rvalue where
  | useOp (op : Operand)
  | refP (isMut : Bool) (p : Place)
  | cast (op : Operand) (ty : Ty)
  | otherRv (ops : List Operand) (places : List Place)
deriving DecidableEq, Repr

/-- Statement kind. StorageLive, StorageDead and Nop are the no-cost
statements; all remaining variants are collapsed into a generic container
exposing their operands and places. -/
inductive StatementKind where
  | assign (p : Place) (r : Rvalue)
  | storageLive (l : Local)
  | storageDead (l : Local)
  | nop
  | otherStmt (ops : List Operand) (places : List Place)
deriving DecidableEq, Repr

inductive TerminatorKind where
  | goto (target : BasicBlock)
  | switchInt (discr : Operand) (targets : List BasicBlock)
  | drop (location : Place) (target : BasicBlock) (unwind : Option BasicBlock)
  | dropAndReplace (location : Place) (value : Operand) (target : BasicBlock)
      (unwind : Option BasicBlock)
  | call (func : Operand) (args : List Operand)
      (destination : Option (Place × BasicBlock)) (cleanup : Option BasicBlock)
  | assert (cond : Operand) (target : BasicBlock) (cleanup : Option BasicBlock)
  | ret
  | resume
  | abort
  | unreachable
  | yieldT (value : Operand) (resumeTarget : BasicBlock) (dropTarget : Option BasicBlock)
  | generatorDrop
  | falseEdges (realTarget : BasicBlock) (imaginaryTargets : List BasicBlock)
deriving DecidableEq, Repr

/-- Successor blocks of a terminator, in the order the source's
Terminator::successors returns them. -/
def TerminatorKind.successors : TerminatorKind → List BasicBlock
  | .goto t => [t]
  | .switchInt _ ts => ts
  | .resume => []
  | .generatorDrop => []
  | .ret => []
  | .unreachable => []
  | .abort => []
  | .call _ _ (some d) (some c) => [d.2, c]
  | .call _ _ (some d) none => [d.2]
  | .call _ _ none (some c) => [c]
  | .call _ _ none none => []
  | .yieldT _ t (some c) => [t, c]
  | .yieldT _ t none => [t]
  | .drop _ t (some u) => [t, u]
  | .drop _ t none => [t]
  | .dropAndReplace _ _ t (some u) => [t, u]
  | .dropAndReplace _ _ t none => [t]
  | .assert _ t (some c) => [t, c]
  | .assert _ t none => [t]
  | .falseEdges r im => r :: im

structure BasicBlockData where
  statements : List StatementKind
  terminator : TerminatorKind
  is_cleanup : Bool
deriving DecidableEq, Repr

instance : Inhabited BasicBlockData := ⟨⟨[], .unreachable, false⟩⟩

/-- Local variable declaration: its type, whether it is a user variable
(this is what LocalKind classification looks at), and its source-info
scope and span. -/
structure LocalDecl where
  ty : Ty
  is_user_variable : Bool
  scope : Nat
  span : Nat
deriving DecidableEq, Repr

instance : Inhabited LocalDecl := ⟨⟨0, false, 0, 0⟩⟩

/-- LocalDecl::new_temp: a fresh temporary in the argument scope. -/
def LocalDecl.new_temp (ty : Ty) (span : Nat) : LocalDecl :=
  { ty, is_user_variable := false, scope := 0, span }

structure VisibilityScopeData where
  parent_scope : Option Nat
  span : Nat
deriving DecidableEq, Repr

/-- A function body.  Locals are numbered with the return slot first,
then the arg_count arguments, then vars and temporaries.  The promoted
table entries are plain number tokens. -/
structure Mir where
  basic_blocks : List BasicBlockData
  local_decls : List LocalDecl
  arg_count : Nat
  upvar_decls : Nat
  yield_ty : Bool
  visibility_scopes : List VisibilityScopeData
  promoted : List Nat
  span : Nat
deriving DecidableEq, Repr

inductive LocalKind where
  | returnPointer
  | arg
  | var
  | temp
deriving DecidableEq, Repr

/-- Mir::local_kind. -/
def Mir.local_kind (m : Mir) (l : Local) : LocalKind :=
  if l = 0 then .returnPointer
  else if l ≤ m.arg_count then .arg
  else if (m.local_decls.getD l default).is_user_variable then .var
  else .temp

/-- The vars-and-temps portion of the local table (everything after the
return slot and the arguments). -/
def Mir.vars_and_temps (m : Mir) : List LocalDecl :=
  m.local_decls.drop (m.arg_count + 1)

inductive InlineAttr where
  | always
  | never
  | hint
  | none
deriving DecidableEq, Repr

/-- Everything should_inline asks the compiler about the callee's
identity: its inline attribute, whether it is marked cold, whether it is
local to the crate, and how many type parameters the call substitutes. -/
structure CalleeInfo where
  hint : InlineAttr
  cold : Bool
  is_local : Bool
  substs_types_count : Nat
deriving DecidableEq, Repr

/-- The oracle record standing for the tcx queries the pass performs.
place_needs_drop models location.ty(..).subst(..).needs_drop(..),
size_of models type_size_of after substitution, is_intrinsic models the
fn_sig(def_id).abi() intrinsic check, the ty oracles model the type
computations done when synthesizing temporaries. -/
structure Ctx where
  place_needs_drop : Place → Bool
  size_of : Ty → Option Nat
  ptr_size : Nat
  is_intrinsic : Nat → Bool
  rvalue_ty : Rvalue → Ty
  op_ty : Operand → Ty
  pointee_ty : Ty → Ty
  mut_ptr_ty : Ty → Ty
  tuple_tys : Ty → List Ty

/-- Per-call-site data: the caller block holding the call, the call's
source scope and span, and the classification of the callee that
inline_call and make_call_args branch on. -/
structure CallSiteData where
  bb : Nat
  scope : Nat
  span : Nat
  is_box_free : Bool
  callee_is_closure : Bool
deriving DecidableEq, Repr

def DEFAULT_THRESHOLD : Nat := 50
def HINT_THRESHOLD : Nat := 100
def INSTR_COST : Nat := 5
def CALL_PENALTY : Nat := 25
def UNKNOWN_SIZE_COST : Nat := 10

/-- Cost of one statement: StorageLive, StorageDead and Nop are free,
everything else costs INSTR_COST. -/
def stmt_cost : StatementKind → Nat
  | .storageLive _ => 0
  | .storageDead _ => 0
  | .nop => 0
  | _ => INSTR_COST

/-- Cost of a direct call, depending on the function operand: constants
of function-definition type cost CALL_PENALTY, or INSTR_COST when the
callee is an intrinsic; a constant of non-function type adds nothing;
a non-constant function operand falls to the catch-all INSTR_COST. -/
def call_cost (ctx : Ctx) : Operand → Nat
  | .constant (some defId) _ =>
      if ctx.is_intrinsic defId then INSTR_COST else CALL_PENALTY
  | .constant Option.none _ => 0
  | _ => INSTR_COST

/-- Result of processing one block's terminator in the cost traversal:
the cost added, the (possibly forced) threshold, and the blocks pushed
onto the work list (head = top of stack). -/
structure CostStep where
  delta : Nat
  threshold : Nat
  pushed : List Nat
deriving DecidableEq, Repr

/-- The terminator part of one iteration of should_inline's traversal
loop.  Drops push their target and, only when the dropped place needs
drop glue, also their unwind edge; they never push the generic successor
list.  A diverging terminator (unreachable, or a call with no return
destination) in the first processed block forces the threshold to 0 and
adds no cost.  All other terminators push their successors in stack
order. -/
def cost_term_step (ctx : Ctx) (first : Bool) (threshold : Nat) :
    TerminatorKind → CostStep
  | .drop location target unwind =>
      if ctx.place_needs_drop location then
        { delta := CALL_PENALTY, threshold, pushed := unwind.toList ++ [target] }
      else
        { delta := INSTR_COST, threshold, pushed := [target] }
  | .dropAndReplace location _ target unwind =>
      if ctx.place_needs_drop location then
        { delta := CALL_PENALTY, threshold, pushed := unwind.toList ++ [target] }
      else
        { delta := INSTR_COST, threshold, pushed := [target] }
  | .unreachable =>
      if first then { delta := 0, threshold := 0, pushed := [] }
      else { delta := INSTR_COST, threshold, pushed := [] }
  | .call f args dest cleanup =>
      if first && dest.isNone then
        { delta := 0, threshold := 0,
          pushed := (TerminatorKind.call f args dest cleanup).successors.reverse }
      else
        { delta := call_cost ctx f, threshold,
          pushed := (TerminatorKind.call f args dest cleanup).successors.reverse }
  | .assert cond target cleanup =>
      { delta := CALL_PENALTY, threshold,
        pushed := (TerminatorKind.assert cond target cleanup).successors.reverse }
  | k => { delta := INSTR_COST, threshold, pushed := k.successors.reverse }

/-- The visited-set-guarded work-list traversal of should_inline,
accumulating cost and threatening the threshold.  Returns the final
(cost, threshold, visited set).  A block already visited (or out of
range) is skipped without touching the state. -/
def inline_cost_loop (ctx : Ctx) (callee : Mir) :
    List Nat → Finset Nat → Bool → Nat → Nat → Nat × Nat × Finset Nat
  | [], visited, _, cost, threshold => (cost, threshold, visited)
  | bb :: rest, visited, first, cost, threshold =>
    if h : bb ∈ visited ∨ callee.basic_blocks.length ≤ bb then
      inline_cost_loop ctx callee rest visited first cost threshold
    else
      let blk := callee.basic_blocks.getD bb default
      let s := cost_term_step ctx first threshold blk.terminator
      inline_cost_loop ctx callee (s.pushed ++ rest) (insert bb visited) false
        (cost + (blk.statements.map stmt_cost).sum + s.delta) s.threshold
  termination_by work visited _ _ _ =>
    ((Finset.range callee.basic_blocks.length \ visited).card, work.length)
  decreasing_by
  · apply Prod.Lex.right
    simp
  · apply Prod.Lex.left
    apply Finset.card_lt_card
    rw [Finset.ssubset_iff_of_subset
      (Finset.sdiff_subset_sdiff (Finset.Subset.refl _) (Finset.subset_insert _ _))]
    refine ⟨bb, ?_, ?_⟩
    · simp only [Finset.mem_sdiff, Finset.mem_range]
      push_neg at h
      exact ⟨h.2, h.1⟩
    · simp

/-- Cost contribution of the vars-and-temps local table: size in machine
words when the layout is known, a flat UNKNOWN_SIZE_COST otherwise. -/
def locals_cost (ctx : Ctx) (callee : Mir) : Nat :=
  callee.vars_and_temps.foldl
    (fun c d =>
      match ctx.size_of d.ty with
      | some size => c + size / ctx.ptr_size
      | Option.none => c + UNKNOWN_SIZE_COST) 0

/-- Threshold computation of should_inline: base 50 (100 when
inline-hinted), divided by 5 when cold, with a quarter bonus when the
callee has at most 3 blocks. -/
def initial_threshold (info : CalleeInfo) (callee : Mir) : Nat :=
  let hinted := info.hint == InlineAttr.always || info.hint == InlineAttr.hint
  let threshold := if hinted then HINT_THRESHOLD else DEFAULT_THRESHOLD
  let threshold := if info.cold then threshold / 5 else threshold
  if callee.basic_blocks.length ≤ 3 then threshold + threshold / 4 else threshold

/-- Inliner::should_inline.  Early rejections: closures with captures,
untransformed generators, never-inline callees, and local non-generic
non-hinted functions.  Then the cost traversal runs from the entry block
and the decision compares cost with the (possibly forced) threshold,
except that inline(always) accepts unconditionally. -/
def should_inline (ctx : Ctx) (info : CalleeInfo) (callee : Mir) : Bool :=
  if callee.upvar_decls > 0 then false
  else if callee.yield_ty then false
  else if info.hint == InlineAttr.never then false
  else
    let hinted := info.hint == InlineAttr.always || info.hint == InlineAttr.hint
    if info.is_local && info.substs_types_count == 0 && !hinted then false
    else
      let r := inline_cost_loop ctx callee [START_BLOCK] ∅ true 0
        (initial_threshold info callee)
      let cost := r.1 + locals_cost ctx callee
      if info.hint == InlineAttr.always then true
      else decide (cost ≤ r.2.1)

/-! ## The graph integrator -/

/-- The per-splice state of the Integrator: the caller's block count at
splice start, the marshaled argument locals, the three renumbering maps,
the destination place substituting for the callee's return slot, the
continuation block and the call's cleanup block.  The in_cleanup_block
flag of the source is passed as an explicit argument to the visit
functions. -/
structure Integrator where
  block_idx : Nat
  args : List Local
  local_map : List Local
  scope_map : List Nat
  promoted_map : List Nat
  destination : Place
  return_block : BasicBlock
  cleanup_block : Option BasicBlock

/-- Integrator::update_target: offset an intra-body block index by the
caller's block count at splice start. -/
def Integrator.update_target (i : Integrator) (tgt : BasicBlock) : BasicBlock :=
  tgt + i.block_idx

/-- Integrator::visit_local: the return slot maps to the destination
(which must be a plain local here; the source raises a fatal
internal-consistency error otherwise, modelled as the identity),
argument slots map through the marshaled argument list, and all the
remaining locals map through local_map. -/
def Integrator.visit_local (i : Integrator) (l : Local) : Local :=
  if l = RETURN_PLACE then
    match i.destination with
    | .localP d => d
    | _ => l
  else
    let idx := l - 1
    if idx < i.args.length then i.args.getD idx 0
    else i.local_map.getD (idx - i.args.length) 0

def Integrator.visit_projection_elem (i : Integrator) :
    ProjectionElem → ProjectionElem
  | .index l => .index (i.visit_local l)
  | e => e

/-- Integrator::visit_place: a bare reference to the return slot is
replaced by the whole destination place; otherwise the contained locals
are renumbered structurally. -/
def Integrator.visit_place (i : Integrator) : Place → Place
  | .localP l =>
      if l = RETURN_PLACE then i.destination else .localP (i.visit_local l)
  | .staticP s => .staticP s
  | .projection base e => .projection (i.visit_place base) (i.visit_projection_elem e)

/-- Integrator::visit_literal (via visit_operand): promoted-constant
references are renumbered through promoted_map when in range. -/
def Integrator.visit_operand (i : Integrator) : Operand → Operand
  | .copy p => .copy (i.visit_place p)
  | .move p => .move (i.visit_place p)
  | .constant fnDef promotedRef =>
      .constant fnDef (promotedRef.map (fun idx =>
        match i.promoted_map.get? idx with
        | some p => p
        | Option.none => idx))

def Integrator.visit_rvalue (i : Integrator) : Rvalue → Rvalue
  | .useOp op => .useOp (i.visit_operand op)
  | .refP m p => .refP m (i.visit_place p)
  | .cast op ty => .cast (i.visit_operand op) ty
  | .otherRv ops ps => .otherRv (ops.map i.visit_operand) (ps.map i.visit_place)

def Integrator.visit_statement (i : Integrator) : StatementKind → StatementKind
  | .assign p r => .assign (i.visit_place p) (i.visit_rvalue r)
  | .storageLive l => .storageLive (i.visit_local l)
  | .storageDead l => .storageDead (i.visit_local l)
  | .nop => .nop
  | .otherStmt ops ps => .otherStmt (ops.map i.visit_operand) (ps.map i.visit_place)

/-- The place/operand rewriting the generic super_terminator_kind
visitor performs before the Integrator's own match runs (the default
visit_branch does nothing, so block targets are untouched here). -/
def Integrator.super_terminator_kind (i : Integrator) : TerminatorKind → TerminatorKind
  | .goto t => .goto t
  | .switchInt d ts => .switchInt (i.visit_operand d) ts
  | .drop loc t u => .drop (i.visit_place loc) t u
  | .dropAndReplace loc v t u => .dropAndReplace (i.visit_place loc) (i.visit_operand v) t u
  | .call f args dest cl =>
      .call (i.visit_operand f) (args.map i.visit_operand)
        (dest.map (fun d => (i.visit_place d.1, d.2))) cl
  | .assert c t cl => .assert (i.visit_operand c) t cl
  | .yieldT v r d => .yieldT (i.visit_operand v) r d
  | k => k

/-- Integrator::visit_terminator_kind: after the super pass, all block
targets are offset; a drop, drop-and-replace, call or assert with no
explicit unwind edge receives the original call's cleanup block unless
it sits inside a cleanup block; Return becomes a jump to the
continuation block; Resume becomes a jump to the cleanup block when one
exists; Abort and Unreachable pass through; Yield and GeneratorDrop are
a fatal internal-consistency error in the source (modelled as the
identity). -/
def Integrator.visit_terminator_kind (i : Integrator) (in_cleanup_block : Bool)
    (kind : TerminatorKind) : TerminatorKind :=
  match i.super_terminator_kind kind with
  | .goto t => .goto (i.update_target t)
  | .switchInt d ts => .switchInt d (ts.map i.update_target)
  | .drop loc t u =>
      .drop loc (i.update_target t)
        (match u with
         | some tgt => some (i.update_target tgt)
         | Option.none => if in_cleanup_block then Option.none else i.cleanup_block)
  | .dropAndReplace loc v t u =>
      .dropAndReplace loc v (i.update_target t)
        (match u with
         | some tgt => some (i.update_target tgt)
         | Option.none => if in_cleanup_block then Option.none else i.cleanup_block)
  | .call f args dest cl =>
      .call f args (dest.map (fun d => (d.1, i.update_target d.2)))
        (match cl with
         | some tgt => some (i.update_target tgt)
         | Option.none => if in_cleanup_block then Option.none else i.cleanup_block)
  | .assert c t cl =>
      .assert c (i.update_target t)
        (match cl with
         | some tgt => some (i.update_target tgt)
         | Option.none => if in_cleanup_block then Option.none else i.cleanup_block)
  | .ret => .goto i.return_block
  | .resume =>
      (match i.cleanup_block with
       | some tgt => .goto tgt
       | Option.none => .resume)
  | .abort => .abort
  | .unreachable => .unreachable
  | .falseEdges r im => .falseEdges (i.update_target r) (im.map i.update_target)
  | .yieldT v r d => .yieldT v r d
  | .generatorDrop => .generatorDrop

/-- Integrator::visit_basic_block_data: rewrite every statement and the
terminator, with in_cleanup_block set from the block being visited. -/
def Integrator.visit_basic_block_data (i : Integrator) (data : BasicBlockData) :
    BasicBlockData :=
  { statements := data.statements.map i.visit_statement,
    terminator := i.visit_terminator_kind data.is_cleanup data.terminator,
    is_cleanup := data.is_cleanup }

/-! ## Splicing: inline_call and its helpers -/

/-- Apply a function to the block at the given index. -/
def Mir.modify_block (m : Mir) (bb : Nat) (f : BasicBlockData → BasicBlockData) : Mir :=
  { m with basic_blocks := m.basic_blocks.set bb (f (m.basic_blocks.getD bb default)) }

/-- Append a statement to the block at the given index. -/
def Mir.push_stmt (m : Mir) (bb : Nat) (st : StatementKind) : Mir :=
  m.modify_block bb (fun blk => { blk with statements := blk.statements ++ [st] })

/-- Append a local declaration, returning the new local's index (the
IndexVec push of the source). -/
def Mir.push_local (m : Mir) (d : LocalDecl) : Mir × Local :=
  ({ m with local_decls := m.local_decls ++ [d] }, m.local_decls.length)

/-- The operand-reuse test of create_temp_if_necessary: a move of a
caller local that is already a temporary is reused directly. -/
def reusable_temp (caller : Mir) : Operand → Option Local
  | .move (.localP l) => if caller.local_kind l = LocalKind.temp then some l else Option.none
  | _ => Option.none

/-- Inliner::create_temp_if_necessary: reuse a moved caller temporary,
or synthesize a fresh temporary and an assignment of the argument into
it at the call-site block. -/
def create_temp_if_necessary (ctx : Ctx) (cs : CallSiteData) (arg : Operand)
    (caller : Mir) : Mir × Local :=
  match reusable_temp caller arg with
  | some l => (caller, l)
  | Option.none =>
      let arg_rv := Rvalue.useOp arg
      let ty := ctx.rvalue_ty arg_rv
      let p := caller.push_local (LocalDecl.new_temp ty cs.span)
      let caller1 := p.1.push_stmt cs.bb (.assign (.localP p.2) arg_rv)
      (caller1, p.2)

/-- Inliner::make_call_args.  For the rust-call (closure) convention the
two supplied operands are the environment and the argument tuple; the
tuple is spilled and one temporary per declared tuple field is
marshaled.  Otherwise each argument is marshaled in order.  (The source
asserts exactly two operands in the closure case; other shapes are a
fatal error, modelled by returning no argument locals.) -/
def make_call_args (ctx : Ctx) (cs : CallSiteData) (args : List Operand)
    (caller : Mir) : Mir × List Local :=
  if cs.callee_is_closure then
    match args with
    | [self_op, tuple_op] =>
        let p1 := create_temp_if_necessary ctx cs self_op caller
        let p2 := create_temp_if_necessary ctx cs tuple_op p1.1
        let tuple := p2.2
        let tuple_tys := ctx.tuple_tys ((p2.1.local_decls.getD tuple default).ty)
        let r := tuple_tys.enum.foldl
          (fun (acc : Mir × List Local) fi =>
            let field_op := Operand.move (.projection (.localP tuple)
              (.field fi.1 fi.2))
            let q := create_temp_if_necessary ctx cs field_op acc.1
            (q.1, acc.2 ++ [q.2]))
          (p2.1, [])
        (r.1, p1.2 :: r.2)
    | _ => (caller, [])
  else
    args.foldl
      (fun (acc : Mir × List Local) a =>
        let q := create_temp_if_necessary ctx cs a acc.1
        (q.1, acc.2 ++ [q.2]))
      (caller, [])

/-- Inliner::cast_box_free_arg: synthesize a mutable reference to the
dereferenced argument, then a cast of it to the raw-pointer type the
box_free body expects, each spilled to a fresh temporary at the call
site. -/
def cast_box_free_arg (ctx : Ctx) (cs : CallSiteData) (arg : Place) (ptr_ty : Ty)
    (caller : Mir) : Mir × Local :=
  let ref_rv := Rvalue.refP true (.projection arg .deref)
  let ty := ctx.rvalue_ty ref_rv
  let p := caller.push_local (LocalDecl.new_temp ty cs.span)
  let caller1 := p.1.push_stmt cs.bb (.assign (.localP p.2) ref_rv)
  let pointee := ctx.pointee_ty ptr_ty
  let raw_ty := ctx.mut_ptr_ty pointee
  let raw_rv := Rvalue.cast (Operand.move (.localP p.2)) raw_ty
  let q := caller1.push_local (LocalDecl.new_temp raw_ty cs.span)
  let caller2 := q.1.push_stmt cs.bb (.assign (.localP q.2) raw_rv)
  (caller2, q.2)

/-- dest_needs_borrow: the declared destination must be borrowed when
re-evaluating it after the inlined body could change its meaning — it
dereferences, indexes through a runtime value at some projection level,
or names a static. -/
def dest_needs_borrow : Place → Bool
  | .projection base elem =>
      (match elem with
       | .deref => true
       | .index _ => true
       | _ => dest_needs_borrow base)
  | .staticP _ => true
  | .localP _ => false

/-- The destination-determination step of inline_call: when the declared
destination needs a borrow, push a fresh temporary holding a mutable
reference of it, emit the borrowing assignment at the call-site block,
and use the dereference of the temporary; otherwise use the declared
place directly. -/
def dest_for_call (ctx : Ctx) (cs : CallSiteData) (destination : Place)
    (caller : Mir) : Mir × Place :=
  if dest_needs_borrow destination then
    let dest_rv := Rvalue.refP true destination
    let ty := ctx.rvalue_ty dest_rv
    let p := caller.push_local (LocalDecl.new_temp ty cs.span)
    let tmp := Place.localP p.2
    let caller1 := p.1.push_stmt cs.bb (.assign tmp dest_rv)
    (caller1, .projection tmp .deref)
  else
    (caller, destination)

/-- Inliner::inline_call.  The call site's terminator must be a call
with a return destination; otherwise it is restored unchanged and the
attempt fails.  On success the callee's scopes, vars-and-temps locals
and promoted constants are appended to the caller's tables (the three
maps list the successive appended indices, exactly the values the
source's IndexVec pushes return), the destination and the argument list
are prepared, every callee block is rewritten by the Integrator and
appended, and the call terminator becomes a jump to the first appended
block. -/
def inline_call (ctx : Ctx) (cs : CallSiteData) (caller : Mir) (callee : Mir) :
    Mir × Bool :=
  match (caller.basic_blocks.getD cs.bb default).terminator with
  | .call _f args (some destination) cleanup =>
      let scope_map := (List.range callee.visibility_scopes.length).map
        (· + caller.visibility_scopes.length)
      let new_scopes := callee.visibility_scopes.map (fun sc =>
        let sc1 := if sc.parent_scope = Option.none then
          { sc with parent_scope := some cs.scope, span := callee.span } else sc
        { sc1 with span := cs.span })
      let caller1 := { caller with
        visibility_scopes := caller.visibility_scopes ++ new_scopes }
      let callee_vars := callee.vars_and_temps
      let local_map := (List.range callee_vars.length).map
        (· + caller1.local_decls.length)
      let new_locals := callee_vars.map (fun d =>
        { d with scope := scope_map.getD d.scope 0, span := cs.span })
      let caller2 := { caller1 with local_decls := caller1.local_decls ++ new_locals }
      let promoted_map := (List.range callee.promoted.length).map
        (· + caller2.promoted.length)
      let caller3 := { caller2 with promoted := caller2.promoted ++ callee.promoted }
      let pd := dest_for_call ctx cs destination.1 caller3
      let dest := pd.2
      let pa :=
        if cs.is_box_free then
          match args with
          | [Operand.move place] =>
              let r := cast_box_free_arg ctx cs place
                (ctx.op_ty (Operand.move place)) pd.1
              (r.1, [r.2])
          | _ => (pd.1, [])
        else
          make_call_args ctx cs args pd.1
      let caller5 := pa.1
      let bb_len := caller5.basic_blocks.length
      let itg : Integrator := {
        block_idx := bb_len, args := pa.2, local_map, scope_map, promoted_map,
        destination := dest, return_block := destination.2, cleanup_block := cleanup }
      let new_blocks := callee.basic_blocks.map itg.visit_basic_block_data
      let caller6 := { caller5 with basic_blocks := caller5.basic_blocks ++ new_blocks }
      let caller7 := caller6.modify_block cs.bb
        (fun blk => { blk with terminator := .goto bb_len })
      (caller7, true)
  | k =>
      (caller.modify_block cs.bb (fun blk => { blk with terminator := k }), false)

/-- The driver's per-candidate step (run_pass lines 131-148): run the
heuristic, and only on acceptance normalize and integrate. -/
def process_callsite (ctx : Ctx) (info : CalleeInfo) (cs : CallSiteData)
    (caller callee : Mir) : Mir :=
  if should_inline ctx info callee then (inline_call ctx cs caller callee).1
  else caller

/-- Inline::run_pass: the whole pass is gated on the session's MIR
optimization level; below 2 the Inliner is not even constructed and the
body is untouched.  The constructed Inliner's work (scanning, inlining,
cleanup) is abstracted as the function argument. -/
def Inline.run_pass (mir_opt_level : Nat) (inliner_run : Mir → Mir) (mir : Mir) : Mir :=
  if 2 ≤ mir_opt_level then inliner_run mir else mir

/-! ## Auxiliary predicates and sample fixtures -/

/-- Spec-side reading of claim C1's destination condition: the place
contains a dereference or a runtime-value index at some projection
level, or names a static variable. -/
def spec_destination_unstable : Place → Bool
  | .localP _ => false
  | .staticP _ => true
  | .projection base e =>
      (match e with
       | .deref => true
       | .index _ => true
       | _ => false) || spec_destination_unstable base

/-- A terminator kind that forces the threshold to 0 when it ends the
entry block: unreachable, or a call with no return destination. -/
def diverging_entry : TerminatorKind → Bool
  | .unreachable => true
  | .call _ _ Option.none _ => true
  | _ => false

/-- Does the call-site terminator satisfy inline_call's precondition
(a function call with a declared return destination)? -/
def is_accepted_call : TerminatorKind → Bool
  | .call _ _ (some _) _ => true
  | _ => false

/-- Cost contribution of one block when it is not the first block
processed: statement costs plus the terminator cost. -/
def block_cost (ctx : Ctx) (callee : Mir) (bb : Nat) : Nat :=
  ((callee.basic_blocks.getD bb default).statements.map stmt_cost).sum
    + (cost_term_step ctx false 0 (callee.basic_blocks.getD bb default).terminator).delta

/-- A concrete oracle used by witnesses: every type has size 16 on a
machine with 8-byte pointers, nothing needs drop glue, nothing is an
intrinsic. -/
def exCtx : Ctx :=
  { place_needs_drop := fun _ => false
    size_of := fun _ => some 16
    ptr_size := 8
    is_intrinsic := fun _ => false
    rvalue_ty := fun _ => 0
    op_ty := fun _ => 0
    pointee_ty := fun t => t
    mut_ptr_ty := fun t => t
    tuple_tys := fun _ => [] }

/-- A one-block caller whose entry block calls some function with a
plain-local destination. -/
def exCaller : Mir :=
  { basic_blocks := [
      { statements := []
        terminator := .call (.constant (some 7) Option.none) []
          (some (.localP 1, 0)) Option.none
        is_cleanup := false }]
    local_decls := [default, default]
    arg_count := 0
    upvar_decls := 0
    yield_ty := false
    visibility_scopes := []
    promoted := []
    span := 0 }

/-- A one-block callee: one ordinary statement, then return; one
var/temp local.  Its traversal cost is 5 + 5 and its locals cost is 2
words, 12 in total. -/
def exCallee : Mir :=
  { basic_blocks := [
      { statements := [.otherStmt [] []]
        terminator := .ret
        is_cleanup := false }]
    local_decls := [default, default]
    arg_count := 0
    upvar_decls := 0
    yield_ty := false
    visibility_scopes := []
    promoted := []
    span := 0 }

/-- The same callee padded with three blocks that are unreachable from
the entry block, so the traversal cost stays 12 while the small-body
bonus no longer applies. -/
def exCallee4 : Mir :=
  { exCallee with basic_blocks := exCallee.basic_blocks ++ [default, default, default] }

def exCallSite : CallSiteData :=
  { bb := 0, scope := 0, span := 0, is_box_free := false, callee_is_closure := false }

/-! ## Helper lemmas about the cost traversal -/

theorem cost_term_step_threshold_false (ctx : Ctx) (th : Nat) (k : TerminatorKind) :
    (cost_term_step ctx false th k).threshold = th := by
  cases k <;> simp [cost_term_step] <;> split <;> rfl

theorem cost_term_step_threshold_cases (ctx : Ctx) (first : Bool) (th : Nat)
    (k : TerminatorKind) :
    (cost_term_step ctx first th k).threshold = th ∨
      (cost_term_step ctx first th k).threshold = 0 := by
  cases k <;> simp [cost_term_step] <;> split <;> simp

theorem cost_term_step_delta_th (ctx : Ctx) (first : Bool) (th th' : Nat)
    (k : TerminatorKind) :
    (cost_term_step ctx first th k).delta = (cost_term_step ctx first th' k).delta := by
  cases k <;> simp [cost_term_step] <;> split <;> rfl

theorem cost_term_step_pushed_th (ctx : Ctx) (first : Bool) (th th' : Nat)
    (k : TerminatorKind) :
    (cost_term_step ctx first th k).pushed = (cost_term_step ctx first th' k).pushed := by
  cases k <;> simp [cost_term_step] <;> split <;> rfl

theorem cost_term_step_threshold_nondiv (ctx : Ctx) (first : Bool) (th : Nat)
    (k : TerminatorKind) (h : diverging_entry k = false) :
    (cost_term_step ctx first th k).threshold = th := by
  cases k <;> simp_all [diverging_entry, cost_term_step] <;> split <;> simp_all

theorem cost_term_step_threshold_div (ctx : Ctx) (th : Nat)
    (k : TerminatorKind) (h : diverging_entry k = true) :
    (cost_term_step ctx true th k).threshold = 0 := by
  cases k <;> simp_all [diverging_entry, cost_term_step]
  case call f a d c =>
    cases d <;> simp_all [cost_term_step]

/-- Once the first block has been processed, the traversal never touches
the threshold again. -/
theorem inline_cost_loop_threshold_of_false (ctx : Ctx) (callee : Mir) :
    ∀ (work : List Nat) (visited : Finset Nat) (first : Bool) (cost th : Nat),
      first = false →
      (inline_cost_loop ctx callee work visited first cost th).2.1 = th := by
  intro work visited first cost th hf
  induction work, visited, first, cost, th using inline_cost_loop.induct ctx callee with
  | case1 visited first cost th => simp [inline_cost_loop]
  | case2 bb rest visited first cost th h ih =>
      rw [inline_cost_loop, dif_pos h]
      exact ih hf
  | case3 bb rest visited first cost th h blk s ih =>
      rw [inline_cost_loop, dif_neg h]
      subst hf
      rw [ih rfl]
      exact cost_term_step_threshold_false ctx _ _

/-- The traversal's final threshold is the initial one or zero. -/
theorem inline_cost_loop_threshold_cases (ctx : Ctx) (callee : Mir) :
    ∀ (work : List Nat) (visited : Finset Nat) (first : Bool) (cost th : Nat),
      (inline_cost_loop ctx callee work visited first cost th).2.1 = th ∨
        (inline_cost_loop ctx callee work visited first cost th).2.1 = 0 := by
  intro work visited first cost th
  induction work, visited, first, cost, th using inline_cost_loop.induct ctx callee with
  | case1 visited first cost th => simp [inline_cost_loop]
  | case2 bb rest visited first cost th h ih =>
      rw [inline_cost_loop, dif_pos h]
      exact ih
  | case3 bb rest visited first cost th h blk s ih =>
      rw [inline_cost_loop, dif_neg h]
      rcases ih with ih | ih
      · rw [ih]
        exact cost_term_step_threshold_cases ctx _ _ _
      · right; exact ih

/-- One unfolding of the traversal at an unvisited, in-range block. -/
theorem inline_cost_loop_step (ctx : Ctx) (callee : Mir) (bb : Nat) (rest : List Nat)
    (visited : Finset Nat) (first : Bool) (cost th : Nat)
    (h1 : bb ∉ visited) (h2 : bb < callee.basic_blocks.length) :
    inline_cost_loop ctx callee (bb :: rest) visited first cost th =
      inline_cost_loop ctx callee
        ((cost_term_step ctx first th
            (callee.basic_blocks.getD bb default).terminator).pushed ++ rest)
        (insert bb visited) false
        (cost + ((callee.basic_blocks.getD bb default).statements.map stmt_cost).sum
          + (cost_term_step ctx first th
              (callee.basic_blocks.getD bb default).terminator).delta)
        (cost_term_step ctx first th
          (callee.basic_blocks.getD bb default).terminator).threshold := by
  have hcond : ¬(bb ∈ visited ∨ callee.basic_blocks.length ≤ bb) := by
    rintro (hmem | hle)
    · exact h1 hmem
    · omega
  rw [inline_cost_loop, dif_neg hcond]

/-- Once the first block has been processed, the traversal accounts each
newly visited block exactly once: the final cost is the starting cost
plus the sum of block costs over the set of blocks the traversal adds to
the visited set. -/
theorem inline_cost_loop_sum (ctx : Ctx) (callee : Mir) :
    ∀ (work : List Nat) (visited : Finset Nat) (first : Bool) (cost th : Nat),
      first = false →
      visited ⊆ (inline_cost_loop ctx callee work visited first cost th).2.2 ∧
      (inline_cost_loop ctx callee work visited first cost th).1 =
        cost + ∑ bb ∈
          ((inline_cost_loop ctx callee work visited first cost th).2.2 \ visited),
          block_cost ctx callee bb := by
  intro work visited first cost th hf
  induction work, visited, first, cost, th using inline_cost_loop.induct ctx callee with
  | case1 visited first cost th => simp [inline_cost_loop]
  | case2 bb rest visited first cost th h ih =>
      rw [inline_cost_loop, dif_pos h]
      exact ih hf
  | case3 bb rest visited first cost th h blk s ih =>
      subst hf
      rw [inline_cost_loop, dif_neg h]
      obtain ⟨ihs, ihc⟩ := ih rfl
      push_neg at h
      refine ⟨(Finset.subset_insert bb visited).trans ihs, ?_⟩
      have hbbR := ihs (Finset.mem_insert_self bb visited)
      have hsplit :
          (inline_cost_loop ctx callee (s.pushed ++ rest) (insert bb visited) false
              (cost + (blk.statements.map stmt_cost).sum + s.delta) s.threshold).2.2
              \ visited =
            insert bb
              ((inline_cost_loop ctx callee (s.pushed ++ rest) (insert bb visited) false
                (cost + (blk.statements.map stmt_cost).sum + s.delta) s.threshold).2.2
                \ insert bb visited) := by
        ext x
        simp only [Finset.mem_sdiff, Finset.mem_insert]
        constructor
        · rintro ⟨hx, hxv⟩
          by_cases hxb : x = bb
          · exact Or.inl hxb
          · exact Or.inr ⟨hx, fun hc => (hc.elim hxb hxv)⟩
        · rintro (rfl | ⟨hx, hxi⟩)
          · exact ⟨hbbR, h.1⟩
          · exact ⟨hx, fun hv => hxi (Or.inr hv)⟩
      rw [hsplit, Finset.sum_insert (by simp), ihc]
      have hbc : block_cost ctx callee bb =
          (blk.statements.map stmt_cost).sum + s.delta := by
        have hdelta : s.delta = (cost_term_step ctx false 0 blk.terminator).delta :=
          cost_term_step_delta_th ctx false th 0 blk.terminator
        simp only [block_cost]
        exact congrArg
          (fun x => ((callee.basic_blocks.getD bb default).statements.map stmt_cost).sum + x)
          hdelta.symm
      rw [hbc]
      omega

/-! ## Claim C1 -/

/-- Claim C1: on an accepted call site, when the declared destination
place contains a dereference or a runtime-value index at any projection
level, or names a static variable (exactly the dest_needs_borrow test),
inline_call's destination step appends to the call-site block an
assignment of a mutable borrow of that place into a fresh caller
temporary and uses the dereference of that temporary as the inlined
body's destination; for any other destination no temporary or statement
is created and the place is used directly. -/
theorem C1_destination_borrow :
    (∀ p : Place, dest_needs_borrow p = spec_destination_unstable p) ∧
    (∀ (ctx : Ctx) (cs : CallSiteData) (dst : Place) (caller : Mir),
      dest_needs_borrow dst = true →
      dest_for_call ctx cs dst caller =
        ({ caller with
            local_decls := caller.local_decls ++
              [LocalDecl.new_temp (ctx.rvalue_ty (Rvalue.refP true dst)) cs.span]
            basic_blocks := caller.basic_blocks.set cs.bb
              { caller.basic_blocks.getD cs.bb default with
                statements := (caller.basic_blocks.getD cs.bb default).statements ++
                  [.assign (.localP caller.local_decls.length) (Rvalue.refP true dst)] } },
          Place.projection (.localP caller.local_decls.length) .deref)) ∧
    (∀ (ctx : Ctx) (cs : CallSiteData) (dst : Place) (caller : Mir),
      dest_needs_borrow dst = false →
      dest_for_call ctx cs dst caller = (caller, dst)) := by
  refine ⟨?_, ?_, ?_⟩
  · intro p
    induction p with
    | localP l => rfl
    | staticP s => rfl
    | projection base e ih =>
        cases e <;> simp [dest_needs_borrow, spec_destination_unstable, ih]
  · intro ctx cs dst caller h
    simp [dest_for_call, h, Mir.push_local, Mir.push_stmt, Mir.modify_block]
  · intro ctx cs dst caller h
    simp [dest_for_call, h]

/-- Witness for C1, instantiated at the destination *_3 (a dereference)
and at the destination _1 (a plain local). -/
theorem C1_destination_borrow_witness :
    (dest_needs_borrow (Place.projection (.localP 3) .deref) = true ∧
      dest_for_call exCtx exCallSite (Place.projection (.localP 3) .deref) exCaller =
        ({ exCaller with
            local_decls := exCaller.local_decls ++
              [LocalDecl.new_temp
                (exCtx.rvalue_ty (Rvalue.refP true (Place.projection (.localP 3) .deref)))
                exCallSite.span]
            basic_blocks := exCaller.basic_blocks.set exCallSite.bb
              { exCaller.basic_blocks.getD exCallSite.bb default with
                statements :=
                  (exCaller.basic_blocks.getD exCallSite.bb default).statements ++
                  [.assign (.localP exCaller.local_decls.length)
                    (Rvalue.refP true (Place.projection (.localP 3) .deref))] } },
          Place.projection (.localP exCaller.local_decls.length) .deref)) ∧
    (dest_needs_borrow (.localP 1) = false ∧
      dest_for_call exCtx exCallSite (.localP 1) exCaller = (exCaller, .localP 1)) :=
  ⟨⟨by decide,
    C1_destination_borrow.2.1 exCtx exCallSite (Place.projection (.localP 3) .deref)
      exCaller (by decide)⟩,
   ⟨by decide,
    C1_destination_borrow.2.2 exCtx exCallSite (.localP 1) exCaller (by decide)⟩⟩

/-! ## Claim C2 -/

/-- Claim C2: during integration of a callee block, a drop,
drop-and-replace, call or assert terminator keeps an explicit unwind
target (offset), and otherwise receives the original call's cleanup
block as its unwind target unless the block is an unwind-cleanup block,
in which case it is left without one; Return becomes a jump to the
call's continuation block; Resume becomes a jump to the call's unwind
block when one exists and stays Resume otherwise. -/
theorem C2_terminator_integration (i : Integrator) (cl : Bool) :
    (∀ loc t u, i.visit_terminator_kind cl (.drop loc t u) =
      .drop (i.visit_place loc) (t + i.block_idx)
        (match u with
         | some x => some (x + i.block_idx)
         | Option.none => if cl then Option.none else i.cleanup_block)) ∧
    (∀ loc v t u, i.visit_terminator_kind cl (.dropAndReplace loc v t u) =
      .dropAndReplace (i.visit_place loc) (i.visit_operand v) (t + i.block_idx)
        (match u with
         | some x => some (x + i.block_idx)
         | Option.none => if cl then Option.none else i.cleanup_block)) ∧
    (∀ f args dest c, i.visit_terminator_kind cl (.call f args dest c) =
      .call (i.visit_operand f) (args.map i.visit_operand)
        (dest.map (fun d => (i.visit_place d.1, d.2 + i.block_idx)))
        (match c with
         | some x => some (x + i.block_idx)
         | Option.none => if cl then Option.none else i.cleanup_block)) ∧
    (∀ cond t c, i.visit_terminator_kind cl (.assert cond t c) =
      .assert (i.visit_operand cond) (t + i.block_idx)
        (match c with
         | some x => some (x + i.block_idx)
         | Option.none => if cl then Option.none else i.cleanup_block)) ∧
    (i.visit_terminator_kind cl .ret = .goto i.return_block) ∧
    (i.visit_terminator_kind cl .resume =
      (match i.cleanup_block with
       | some tgt => .goto tgt
       | Option.none => .resume)) := by
  refine ⟨?_, ?_, ?_, ?_, ?_, ?_⟩
  · intro loc t u; cases u <;> rfl
  · intro loc v t u; cases u <;> rfl
  · intro f args dest c; cases dest <;> cases c <;> rfl
  · intro cond t c; cases c <;> rfl
  · rfl
  · rfl

/-! ## Claim C5 -/

/-- Claim C5: the heuristic's threshold is 50, or 100 with an inline
hint; divided by 5 (flooring) when the callee is cold; and multiplied by
1.25 (in flooring integer arithmetic, times 5 divided by 4) when the
callee has at most 3 basic blocks. -/
theorem C5_threshold_values (info : CalleeInfo) (callee : Mir) :
    initial_threshold info callee =
      (let hinted := info.hint == InlineAttr.always || info.hint == InlineAttr.hint
       let base := if hinted then 100 else 50
       let divided := if info.cold then base / 5 else base
       if callee.basic_blocks.length ≤ 3 then divided * 5 / 4 else divided) := by
  simp only [initial_threshold, HINT_THRESHOLD, DEFAULT_THRESHOLD]
  cases hh : (info.hint == InlineAttr.always || info.hint == InlineAttr.hint) <;>
    cases hc : info.cold <;>
      by_cases hb : callee.basic_blocks.length ≤ 3 <;>
        simp [hh, hc, hb]

/-! ## Claim C10 -/

/-- Claim C10: when the session's MIR optimization level is below 2 the
Inliner is never constructed and the caller body is returned unchanged,
whatever the inlining work would have done. -/
theorem C10_opt_level_gate (mir_opt_level : Nat) (h : mir_opt_level < 2)
    (inliner_run : Mir → Mir) (mir : Mir) :
    Inline.run_pass mir_opt_level inliner_run mir = mir := by
  unfold Inline.run_pass
  rw [if_neg (by omega)]

/-- Witness for C10 at level 1 with an inliner stub that would replace
the whole body. -/
theorem C10_opt_level_gate_witness :
    1 < 2 ∧ Inline.run_pass 1 (fun _ => exCallee) exCaller = exCaller :=
  ⟨by decide, C10_opt_level_gate 1 (by decide) (fun _ => exCallee) exCaller⟩

/-! ## Claim C7 -/

/-- Claim C7: a never-inline callee, or a callee with captured upvars,
is rejected by the heuristic before any cost comparison (the result is
false for every oracle and every body, i.e. independent of size or
cost), and the driver's candidate step then leaves the caller — in
particular the call terminator — untouched. -/
theorem C7_never_inline_and_captures (ctx : Ctx) (info : CalleeInfo)
    (cs : CallSiteData) (caller callee : Mir)
    (h : info.hint = InlineAttr.never ∨ 0 < callee.upvar_decls) :
    should_inline ctx info callee = false ∧
    process_callsite ctx info cs caller callee = caller ∧
    ((process_callsite ctx info cs caller callee).basic_blocks.getD cs.bb
        default).terminator =
      ((caller.basic_blocks.getD cs.bb default)).terminator := by
  have hf : should_inline ctx info callee = false := by
    unfold should_inline
    rcases h with h | h
    · simp [h]
    · simp [h]
  refine ⟨hf, ?_, ?_⟩
  · simp [process_callsite, hf]
  · simp [process_callsite, hf]

/-- Witness for C7: a single-block, single-statement callee marked
never-inline, and the same callee body with a capture and no attribute;
both are rejected at zero/small cost and the concrete caller is kept. -/
theorem C7_never_inline_and_captures_witness :
    ((⟨InlineAttr.never, false, false, 0⟩ : CalleeInfo).hint = InlineAttr.never ∨
        0 < exCallee.upvar_decls) ∧
    should_inline exCtx ⟨InlineAttr.never, false, false, 0⟩ exCallee = false ∧
    process_callsite exCtx ⟨InlineAttr.never, false, false, 0⟩ exCallSite
      exCaller exCallee = exCaller :=
  ⟨Or.inl rfl,
   (C7_never_inline_and_captures exCtx ⟨InlineAttr.never, false, false, 0⟩
     exCallSite exCaller exCallee (Or.inl rfl)).1,
   (C7_never_inline_and_captures exCtx ⟨InlineAttr.never, false, false, 0⟩
     exCallSite exCaller exCallee (Or.inl rfl)).2.1⟩

/-! ## Claim C8 -/

theorem list_set_getD_self {α : Type _} [Inhabited α] (l : List α) (n : Nat)
    (h : n < l.length) : l.set n (l.getD n default) = l := by
  apply List.ext_getElem
  · simp
  · intro i h1 h2
    rw [List.getElem_set]
    split
    · rename_i hni
      subst hni
      rw [List.getD_eq_getElem l default h]
    · rfl

/-- Claim C8: when the call-site block's terminator is not a call with a
declared return destination, inline_call restores the terminator
unchanged, reports failure, and the caller body (blocks, locals, scopes,
promoted constants) is exactly what it was. -/
theorem C8_refusal_is_identity (ctx : Ctx) (cs : CallSiteData) (caller callee : Mir)
    (hbb : cs.bb < caller.basic_blocks.length)
    (hk : is_accepted_call ((caller.basic_blocks.getD cs.bb default).terminator) = false) :
    inline_call ctx cs caller callee = (caller, false) := by
  unfold inline_call
  split
  · rename_i heq
    rw [heq] at hk
    simp [is_accepted_call] at hk
  · show ({ caller with basic_blocks :=
        caller.basic_blocks.set cs.bb (caller.basic_blocks.getD cs.bb default) }, false)
      = (caller, false)
    rw [list_set_getD_self _ _ hbb]

/-- Witness for C8: a caller whose block 0 ends in Return, not a call. -/
theorem C8_refusal_is_identity_witness :
    (exCallSite.bb < exCallee.basic_blocks.length ∧
      is_accepted_call ((exCallee.basic_blocks.getD exCallSite.bb default).terminator)
        = false) ∧
    inline_call exCtx exCallSite exCallee exCallee = (exCallee, false) :=
  ⟨⟨by decide, by decide⟩,
   C8_refusal_is_identity exCtx exCallSite exCallee exCallee (by decide) (by decide)⟩

/-! ## Claim C3 -/

/-- When the entry block's terminator is diverging, the traversal's
final threshold is 0. -/
theorem inline_cost_loop_threshold_forced (ctx : Ctx) (callee : Mir) (th : Nat)
    (hlen : 0 < callee.basic_blocks.length)
    (hdiv : diverging_entry
      (callee.basic_blocks.getD START_BLOCK default).terminator = true) :
    (inline_cost_loop ctx callee [START_BLOCK] ∅ true 0 th).2.1 = 0 := by
  have hsb : START_BLOCK = 0 := rfl
  have hcond : ¬(START_BLOCK ∈ (∅ : Finset Nat) ∨
      callee.basic_blocks.length ≤ START_BLOCK) := by
    rintro (hmem | hle)
    · exact absurd hmem (Finset.not_mem_empty _)
    · rw [hsb] at hle
      omega
  rw [inline_cost_loop, dif_neg hcond]
  rw [inline_cost_loop_threshold_of_false ctx callee _ _ false _ _ rfl]
  exact cost_term_step_threshold_div ctx th _ hdiv

/-- When the entry block's terminator is not diverging, no block of the
traversal changes the threshold. -/
theorem inline_cost_loop_threshold_kept (ctx : Ctx) (callee : Mir) (th : Nat)
    (hdiv : diverging_entry
      (callee.basic_blocks.getD START_BLOCK default).terminator = false) :
    (inline_cost_loop ctx callee [START_BLOCK] ∅ true 0 th).2.1 = th := by
  have hsb : START_BLOCK = 0 := rfl
  by_cases hlen : callee.basic_blocks.length = 0
  · have hcond : START_BLOCK ∈ (∅ : Finset Nat) ∨
        callee.basic_blocks.length ≤ START_BLOCK :=
      Or.inr (Nat.le_of_eq (hlen.trans hsb.symm))
    rw [inline_cost_loop, dif_pos hcond, inline_cost_loop]
  · have hcond : ¬(START_BLOCK ∈ (∅ : Finset Nat) ∨
        callee.basic_blocks.length ≤ START_BLOCK) := by
      rintro (hmem | hle)
      · exact absurd hmem (Finset.not_mem_empty _)
      · rw [hsb] at hle
        omega
    rw [inline_cost_loop, dif_neg hcond]
    rw [inline_cost_loop_threshold_of_false ctx callee _ _ false _ _ rfl]
    exact cost_term_step_threshold_nondiv ctx true th _ hdiv

/-- Claim C3: if the callee's entry block ends in unreachable or in a
call with no return destination, the threshold is forced to 0, so — with
the early rejections not applying and no inline(always) attribute — the
candidate is accepted iff the total accumulated cost is exactly 0; and
when the entry terminator is not of those kinds the traversal returns
the initial threshold unchanged (the same kinds in non-entry blocks
never touch it). -/
theorem C3_diverging_entry_forces_zero :
    (∀ (ctx : Ctx) (info : CalleeInfo) (callee : Mir),
      callee.upvar_decls = 0 →
      callee.yield_ty = false →
      info.hint ≠ InlineAttr.always →
      info.hint ≠ InlineAttr.never →
      (info.is_local && info.substs_types_count == 0 &&
        !(info.hint == InlineAttr.always || info.hint == InlineAttr.hint)) = false →
      0 < callee.basic_blocks.length →
      diverging_entry (callee.basic_blocks.getD START_BLOCK default).terminator = true →
      (should_inline ctx info callee = true ↔
        (inline_cost_loop ctx callee [START_BLOCK] ∅ true 0
            (initial_threshold info callee)).1 + locals_cost ctx callee = 0)) ∧
    (∀ (ctx : Ctx) (callee : Mir) (th : Nat),
      diverging_entry (callee.basic_blocks.getD START_BLOCK default).terminator = false →
      (inline_cost_loop ctx callee [START_BLOCK] ∅ true 0 th).2.1 = th) := by
  constructor
  · intro ctx info callee hup hy hna hnn hguard hlen hdiv
    have hforced := inline_cost_loop_threshold_forced ctx callee
      (initial_threshold info callee) hlen hdiv
    have h1 : ¬(callee.upvar_decls > 0) := by omega
    have h2 : ¬(callee.yield_ty = true) := by simp [hy]
    have h3 : ¬((info.hint == InlineAttr.never) = true) := by simp [hnn]
    have h4 : ¬((info.is_local && info.substs_types_count == 0 &&
        !(info.hint == InlineAttr.always || info.hint == InlineAttr.hint)) = true) := by
      simp only [hguard]
      simp
    have h5 : ¬((info.hint == InlineAttr.always) = true) := by simp [hna]
    simp only [should_inline]
    rw [if_neg h1, if_neg h2, if_neg h3, if_neg h4, if_neg h5]
    simp only [hforced]
    rw [decide_eq_true_iff]
    omega
  · exact inline_cost_loop_threshold_kept

/-- Witness for C3: a callee whose single block is empty and ends in
unreachable (cost 0, so it is accepted), and a callee whose entry block
returns (threshold kept at 50). -/
theorem C3_diverging_entry_forces_zero_witness :
    (should_inline exCtx ⟨InlineAttr.none, false, false, 1⟩
        { exCallee with
            basic_blocks := [⟨[], .unreachable, false⟩]
            local_decls := [default] } = true ↔
      (inline_cost_loop exCtx
            { exCallee with
                basic_blocks := [⟨[], .unreachable, false⟩]
                local_decls := [default] } [START_BLOCK] ∅ true 0
            (initial_threshold ⟨InlineAttr.none, false, false, 1⟩
              { exCallee with
                  basic_blocks := [⟨[], .unreachable, false⟩]
                  local_decls := [default] })).1 +
          locals_cost exCtx
            { exCallee with
                basic_blocks := [⟨[], .unreachable, false⟩]
                local_decls := [default] } = 0) ∧
    (inline_cost_loop exCtx exCallee [START_BLOCK] ∅ true 0 50).2.1 = 50 :=
  ⟨C3_diverging_entry_forces_zero.1 exCtx ⟨InlineAttr.none, false, false, 1⟩
      { exCallee with
          basic_blocks := [⟨[], .unreachable, false⟩]
          local_decls := [default] }
      rfl rfl (by decide) (by decide) (by decide) (by decide) (by decide),
   C3_diverging_entry_forces_zero.2 exCtx exCallee 50 (by decide)⟩

/-! ## Claim C4 -/

/-- Claim C4: the cost traversal starts at the entry block and counts
every reachable block at most once — the total cost is a sum over the
visited *set* (entry contribution separate, every other visited block
contributing block_cost exactly once); an unvisited or out-of-range
block is skipped; and a drop or drop-and-replace terminator costs 25 and
pushes its unwind edge in addition to its target when the dropped place
needs drop glue, and otherwise costs 5 and pushes only its target. -/
theorem C4_traversal_visits_once_and_drop_edges :
    (∀ (ctx : Ctx) (callee : Mir) (th : Nat),
      0 < callee.basic_blocks.length →
      START_BLOCK ∈ (inline_cost_loop ctx callee [START_BLOCK] ∅ true 0 th).2.2 ∧
      (inline_cost_loop ctx callee [START_BLOCK] ∅ true 0 th).1 =
        ((callee.basic_blocks.getD START_BLOCK default).statements.map stmt_cost).sum
          + (cost_term_step ctx true 0
              (callee.basic_blocks.getD START_BLOCK default).terminator).delta
          + ∑ bb ∈ (inline_cost_loop ctx callee [START_BLOCK] ∅ true 0
              th).2.2.erase START_BLOCK,
              block_cost ctx callee bb) ∧
    (∀ (ctx : Ctx) (first : Bool) (th : Nat) (loc : Place) (v : Operand)
        (t : Nat) (u : Option Nat),
      cost_term_step ctx first th (.drop loc t u) =
        (if ctx.place_needs_drop loc then
          { delta := CALL_PENALTY, threshold := th, pushed := u.toList ++ [t] }
        else { delta := INSTR_COST, threshold := th, pushed := [t] }) ∧
      cost_term_step ctx first th (.dropAndReplace loc v t u) =
        (if ctx.place_needs_drop loc then
          { delta := CALL_PENALTY, threshold := th, pushed := u.toList ++ [t] }
        else { delta := INSTR_COST, threshold := th, pushed := [t] })) ∧
    (∀ (ctx : Ctx) (callee : Mir) (bb : Nat) (rest : List Nat) (visited : Finset Nat)
        (first : Bool) (cost th : Nat),
      bb ∉ visited → bb < callee.basic_blocks.length →
      inline_cost_loop ctx callee (bb :: rest) visited first cost th =
        inline_cost_loop ctx callee
          ((cost_term_step ctx first th
              (callee.basic_blocks.getD bb default).terminator).pushed ++ rest)
          (insert bb visited) false
          (cost + ((callee.basic_blocks.getD bb default).statements.map stmt_cost).sum
            + (cost_term_step ctx first th
                (callee.basic_blocks.getD bb default).terminator).delta)
          (cost_term_step ctx first th
            (callee.basic_blocks.getD bb default).terminator).threshold) := by
  refine ⟨?_, ?_, ?_⟩
  · intro ctx callee th hlen
    have hsb : START_BLOCK = 0 := rfl
    rw [inline_cost_loop_step ctx callee START_BLOCK [] ∅ true 0 th
      (Finset.not_mem_empty _) (by rw [hsb]; exact hlen)]
    obtain ⟨hsub, hcost⟩ := inline_cost_loop_sum ctx callee
      ((cost_term_step ctx true th
          (callee.basic_blocks.getD START_BLOCK default).terminator).pushed ++ [])
      (insert START_BLOCK ∅) false
      (0 + ((callee.basic_blocks.getD START_BLOCK default).statements.map stmt_cost).sum
        + (cost_term_step ctx true th
            (callee.basic_blocks.getD START_BLOCK default).terminator).delta)
      (cost_term_step ctx true th
        (callee.basic_blocks.getD START_BLOCK default).terminator).threshold
      rfl
    constructor
    · exact hsub (Finset.mem_insert_self _ _)
    · rw [hcost]
      have hdelta : (cost_term_step ctx true th
            (callee.basic_blocks.getD START_BLOCK default).terminator).delta =
          (cost_term_step ctx true 0
            (callee.basic_blocks.getD START_BLOCK default).terminator).delta :=
        cost_term_step_delta_th ctx true th 0 _
      have herase : ∀ s : Finset Nat,
          s \ insert START_BLOCK ∅ = s.erase START_BLOCK := by
        intro s
        ext x
        simp only [Finset.mem_sdiff, Finset.mem_erase, Finset.mem_insert,
          Finset.not_mem_empty, or_false]
        tauto
      rw [herase]
      omega
  · intro ctx first th loc v t u
    constructor
    · by_cases hd : ctx.place_needs_drop loc <;> simp [cost_term_step, hd]
    · by_cases hd : ctx.place_needs_drop loc <;> simp [cost_term_step, hd]
  · intro ctx callee bb rest visited first cost th hnv hlt
    exact inline_cost_loop_step ctx callee bb rest visited first cost th hnv hlt

/-- Witness for C4, run on the concrete callee (its traversal visits
exactly the entry block) and a concrete guarded step. -/
theorem C4_traversal_visits_once_and_drop_edges_witness :
    (0 < exCallee.basic_blocks.length ∧
      0 ∈ (inline_cost_loop exCtx exCallee [START_BLOCK] ∅ true 0 50).2.2) ∧
    ((0 : Nat) ∉ (∅ : Finset Nat) ∧
      inline_cost_loop exCtx exCallee [0] ∅ true 0 50 =
        inline_cost_loop exCtx exCallee
          ((cost_term_step exCtx true 50
              (exCallee.basic_blocks.getD 0 default).terminator).pushed ++ [])
          (insert 0 ∅) false
          (0 + ((exCallee.basic_blocks.getD 0 default).statements.map stmt_cost).sum
            + (cost_term_step exCtx true 50
                (exCallee.basic_blocks.getD 0 default).terminator).delta)
          (cost_term_step exCtx true 50
            (exCallee.basic_blocks.getD 0 default).terminator).threshold) :=
  ⟨⟨by decide,
    (C4_traversal_visits_once_and_drop_edges.1 exCtx exCallee 50 (by decide)).1⟩,
   ⟨by decide,
    C4_traversal_visits_once_and_drop_edges.2.2 exCtx exCallee 0 [] ∅ true 0 50
      (by decide) (by decide)⟩⟩

/-! ## Claim C6 -/

/-- Concrete run of the traversal on the one-block sample callee: the
entry block contributes 5 + 5 and nothing else is reachable.  (The
traversal is defined by well-founded recursion, so concrete runs are
evaluated through its step equations.) -/
theorem inline_cost_loop_exCallee (th : Nat) :
    inline_cost_loop exCtx exCallee [START_BLOCK] ∅ true 0 th = (10, th, {0}) := by
  rw [inline_cost_loop_step exCtx exCallee START_BLOCK [] ∅ true 0 th
    (Finset.not_mem_empty _) (by decide)]
  show inline_cost_loop exCtx exCallee [] {0} false 10 th = (10, th, {0})
  rw [inline_cost_loop]

/-- Concrete run of the traversal on the padded sample callee: the three
added blocks are unreachable from the entry block, so the cost is the
same. -/
theorem inline_cost_loop_exCallee4 (th : Nat) :
    inline_cost_loop exCtx exCallee4 [START_BLOCK] ∅ true 0 th = (10, th, {0}) := by
  rw [inline_cost_loop_step exCtx exCallee4 START_BLOCK [] ∅ true 0 th
    (Finset.not_mem_empty _) (by decide)]
  show inline_cost_loop exCtx exCallee4 [] {0} false 10 th = (10, th, {0})
  rw [inline_cost_loop]

/-- Claim C6 is falsified by the small-body bonus: a cold, unhinted,
non-local callee with a single block and accumulated cost 12 is
accepted, because the threshold is 50 / 5 = 10 and then 10 + 10 / 4 = 12,
and 12 ≤ 12. -/
theorem C6_counterexample :
    (⟨InlineAttr.none, true, false, 0⟩ : CalleeInfo).cold = true ∧
    (⟨InlineAttr.none, true, false, 0⟩ : CalleeInfo).hint = InlineAttr.none ∧
    (inline_cost_loop exCtx exCallee [START_BLOCK] ∅ true 0
        (initial_threshold ⟨InlineAttr.none, true, false, 0⟩ exCallee)).1 +
      locals_cost exCtx exCallee = 12 ∧
    should_inline exCtx ⟨InlineAttr.none, true, false, 0⟩ exCallee = true := by
  refine ⟨rfl, rfl, ?_, ?_⟩
  · rw [inline_cost_loop_exCallee]
    decide
  · simp only [should_inline]
    rw [inline_cost_loop_exCallee]
    decide

/-- Claim C6 amended: a candidate whose callee is cold, carries no
inline hint, has more than 3 basic blocks (so the small-body bonus does
not apply) and whose accumulated cost is 12 is always rejected: the
effective threshold is 50 / 5 = 10 and 12 > 10. -/
theorem C6_cold_cost12_rejected (ctx : Ctx) (info : CalleeInfo) (callee : Mir)
    (hcold : info.cold = true) (hhint : info.hint = InlineAttr.none)
    (hblocks : 3 < callee.basic_blocks.length)
    (hcost : (inline_cost_loop ctx callee [START_BLOCK] ∅ true 0
        (initial_threshold info callee)).1 + locals_cost ctx callee = 12) :
    should_inline ctx info callee = false := by
  have hth : initial_threshold info callee = 10 := by
    have h3 : ¬(callee.basic_blocks.length ≤ 3) := by omega
    simp [initial_threshold, hhint, hcold, DEFAULT_THRESHOLD, h3]
  by_cases h1 : callee.upvar_decls > 0
  · simp [should_inline, h1]
  · by_cases h2 : callee.yield_ty = true
    · simp [should_inline, h1, h2]
    · have h3 : ¬((info.hint == InlineAttr.never) = true) := by simp [hhint]
      have h5 : ¬((info.hint == InlineAttr.always) = true) := by simp [hhint]
      by_cases h4 : (info.is_local && info.substs_types_count == 0 &&
          !(info.hint == InlineAttr.always || info.hint == InlineAttr.hint)) = true
      · simp only [should_inline]
        rw [if_neg h1, if_neg h2, if_neg h3, if_pos h4]
      · simp only [should_inline]
        rw [if_neg h1, if_neg h2, if_neg h3, if_neg h4, if_neg h5]
        rw [decide_eq_false_iff_not]
        rcases inline_cost_loop_threshold_cases ctx callee [START_BLOCK] ∅ true 0
          (initial_threshold info callee) with hc | hc <;> rw [hc] <;> omega

/-- Witness for the amended C6: the cold cost-12 callee padded to four
blocks is rejected. -/
theorem C6_cold_cost12_rejected_witness :
    ((⟨InlineAttr.none, true, false, 0⟩ : CalleeInfo).cold = true ∧
      3 < exCallee4.basic_blocks.length ∧
      (inline_cost_loop exCtx exCallee4 [START_BLOCK] ∅ true 0
          (initial_threshold ⟨InlineAttr.none, true, false, 0⟩ exCallee4)).1 +
        locals_cost exCtx exCallee4 = 12) ∧
    should_inline exCtx ⟨InlineAttr.none, true, false, 0⟩ exCallee4 = false :=
  ⟨⟨rfl, by decide, by rw [inline_cost_loop_exCallee4]; decide⟩,
   C6_cold_cost12_rejected exCtx ⟨InlineAttr.none, true, false, 0⟩ exCallee4
     rfl rfl (by decide) (by rw [inline_cost_loop_exCallee4]; decide)⟩

/-! ## Claim C9 -/

theorem list_getD_eq_get {α : Type _} (l : List α) (dflt : α) (k : Nat)
    (h : k < l.length) : l.getD k dflt = l.get ⟨k, h⟩ := by
  simp [List.getD_eq_getElem?_getD, List.getElem?_eq_getElem h]

theorem list_getD_mem (l : List Nat) (k : Nat) (h : k < l.length) :
    l.getD k 0 ∈ l := by
  rw [list_getD_eq_get l 0 k h]
  exact List.get_mem l _ _

theorem range_map_getD (n L j : Nat) (h : j < n) :
    ((List.range n).map (· + L)).getD j 0 = j + L := by
  rw [list_getD_eq_get _ 0 j (by simp [h])]
  simp

/-- Image of the return slot under the renumbering. -/
theorem visit_local_ret (i : Integrator) (d : Nat)
    (hdest : i.destination = Place.localP d) :
    i.visit_local 0 = d := by
  simp [Integrator.visit_local, RETURN_PLACE, hdest]

/-- Image of an argument slot under the renumbering. -/
theorem visit_local_arg (i : Integrator) (l : Nat) (h1 : 1 ≤ l)
    (h2 : l - 1 < i.args.length) :
    i.visit_local l = i.args.getD (l - 1) 0 := by
  have h0 : ¬(l = RETURN_PLACE) := by
    simp only [RETURN_PLACE]
    omega
  simp only [Integrator.visit_local]
  rw [if_neg h0, if_pos h2]

/-- Image of a plain callee local under the renumbering when local_map
is the contiguous block of freshly appended caller locals. -/
theorem visit_local_rest (i : Integrator) (n L l : Nat)
    (hmap : i.local_map = (List.range n).map (· + L))
    (h1 : 1 + i.args.length ≤ l) (h2 : l < 1 + i.args.length + n) :
    i.visit_local l = (l - 1 - i.args.length) + L := by
  have h0 : ¬(l = RETURN_PLACE) := by
    simp only [RETURN_PLACE]
    omega
  have hna : ¬(l - 1 < i.args.length) := by omega
  have hj : l - 1 - i.args.length < n := by omega
  simp only [Integrator.visit_local]
  rw [if_neg h0, if_neg hna, hmap]
  exact range_map_getD n L _ hj

/-- Claim C9: with the local_map inline_call builds (the contiguous run
of caller locals appended at index L), a destination that is a plain
caller local outside that run and not among the marshaled argument
locals, marshaled argument locals outside that run and pairwise
distinct, the renumbering of callee locals (return slot, argument slots
and the rest combined) is injective, and every callee local other than
the return and argument slots is mapped into the freshly appended run —
so no caller local existing before the splice is the image of any
callee local except through the destination or the argument list. -/
theorem C9_local_renumbering_injective (i : Integrator) (n L d : Nat)
    (hmap : i.local_map = (List.range n).map (· + L))
    (hdest : i.destination = Place.localP d)
    (hdrange : d < L ∨ L + n ≤ d)
    (hdargs : d ∉ i.args)
    (hargs : ∀ (a : Nat), a ∈ i.args → a < L ∨ L + n ≤ a)
    (hnodup : i.args.Nodup) :
    (∀ (l1 l2 : Nat), l1 < 1 + i.args.length + n → l2 < 1 + i.args.length + n →
      i.visit_local l1 = i.visit_local l2 → l1 = l2) ∧
    (∀ (l : Nat), 1 + i.args.length ≤ l → l < 1 + i.args.length + n →
      L ≤ i.visit_local l ∧ i.visit_local l < L + n) := by
  have himg0 := visit_local_ret i d hdest
  constructor
  · intro l1 l2 hl1 hl2 heq
    by_cases h10 : l1 = 0 <;> by_cases h20 : l2 = 0
    · omega
    · exfalso
      subst h10
      rw [himg0] at heq
      by_cases h2a : l2 - 1 < i.args.length
      · rw [visit_local_arg i l2 (by omega) h2a] at heq
        exact hdargs (heq ▸ list_getD_mem i.args (l2 - 1) h2a)
      · rw [visit_local_rest i n L l2 hmap (by omega) (by omega)] at heq
        have hchk : d = l2 - 1 - i.args.length + L := heq
        rcases hdrange with hd | hd <;> omega
    · exfalso
      subst h20
      rw [himg0] at heq
      by_cases h1a : l1 - 1 < i.args.length
      · rw [visit_local_arg i l1 (by omega) h1a] at heq
        exact hdargs (heq ▸ list_getD_mem i.args (l1 - 1) h1a)
      · rw [visit_local_rest i n L l1 hmap (by omega) (by omega)] at heq
        have hchk : l1 - 1 - i.args.length + L = d := heq
        rcases hdrange with hd | hd <;> omega
    · by_cases h1a : l1 - 1 < i.args.length <;> by_cases h2a : l2 - 1 < i.args.length
      · rw [visit_local_arg i l1 (by omega) h1a,
          visit_local_arg i l2 (by omega) h2a,
          list_getD_eq_get i.args 0 (l1 - 1) h1a,
          list_getD_eq_get i.args 0 (l2 - 1) h2a] at heq
        have h12 : l1 - 1 = l2 - 1 :=
          congrArg Fin.val ((List.Nodup.get_inj_iff hnodup).mp heq)
        omega
      · exfalso
        rw [visit_local_arg i l1 (by omega) h1a,
          visit_local_rest i n L l2 hmap (by omega) (by omega)] at heq
        have hchk : l2 - 1 - i.args.length + L = i.args.getD (l1 - 1) 0 := heq.symm
        have hm := list_getD_mem i.args (l1 - 1) h1a
        rcases hargs _ hm with hlt | hge <;> omega
      · exfalso
        rw [visit_local_arg i l2 (by omega) h2a,
          visit_local_rest i n L l1 hmap (by omega) (by omega)] at heq
        have hchk : l1 - 1 - i.args.length + L = i.args.getD (l2 - 1) 0 := heq
        have hm := list_getD_mem i.args (l2 - 1) h2a
        rcases hargs _ hm with hlt | hge <;> omega
      · rw [visit_local_rest i n L l1 hmap (by omega) (by omega),
          visit_local_rest i n L l2 hmap (by omega) (by omega)] at heq
        have hchk : l1 - 1 - i.args.length + L = l2 - 1 - i.args.length + L := heq
        omega
  · intro l h1 h2
    rw [visit_local_rest i n L l hmap h1 h2]
    constructor
    · show L ≤ l - 1 - i.args.length + L
      omega
    · show l - 1 - i.args.length + L < L + n
      omega

/-- A concrete integrator for the C9 witness: two marshaled argument
locals 1 and 2, two fresh locals starting at 5, destination local 0. -/
def exIntegrator : Integrator :=
  { block_idx := 0
    args := [1, 2]
    local_map := (List.range 2).map (· + 5)
    scope_map := []
    promoted_map := []
    destination := Place.localP 0
    return_block := 0
    cleanup_block := Option.none }

/-- Witness for C9 at the concrete integrator. -/
theorem C9_local_renumbering_injective_witness :
    (exIntegrator.local_map = (List.range 2).map (· + 5) ∧
      exIntegrator.destination = Place.localP 0 ∧
      ((0 : Nat) < 5 ∨ 5 + 2 ≤ 0) ∧ (0 : Nat) ∉ exIntegrator.args ∧
      (∀ (a : Nat), a ∈ exIntegrator.args → a < 5 ∨ 5 + 2 ≤ a) ∧
      exIntegrator.args.Nodup) ∧
    (∀ (l1 l2 : Nat), l1 < 1 + exIntegrator.args.length + 2 →
      l2 < 1 + exIntegrator.args.length + 2 →
      exIntegrator.visit_local l1 = exIntegrator.visit_local l2 → l1 = l2) :=
  ⟨⟨rfl, rfl, Or.inl (by decide), by decide, by decide, by decide⟩,
   (C9_local_renumbering_injective exIntegrator 2 5 0 rfl rfl
     (Or.inl (by decide)) (by decide) (by decide) (by decide)).1⟩

end MirInline
